import Mathlib

/-!
Verification development for the Pattern-Studio layout engine
(`services/patternEngine.ts`).  The engine is shallowly embedded: JS
numbers become exact rationals `ℚ`, `Math.random()` becomes an explicit
stream `s : ℕ → ℚ` of samples consumed in program order, canvas drawing
becomes an explicit list of draw commands, and trigonometric values are
kept symbolic over `ℝ` (angles are stored as their coefficient of `π`,
exactly as produced by the source formulas).
-/

/-- Placement mode of the configuration (`'random' | 'grid'`). -/
inductive Mode where
  | random
  | grid
deriving DecidableEq, Repr, Inhabited

/-- Kind of a processed asset (`'svg' | 'raster'`). -/
inductive AssetType where
  | svg
  | raster
deriving DecidableEq, Repr, Inhabited

/-- `PatternConfig` from `types.ts`.  `density` is the requested item
count for random mode (an integer count in the UI), all other numeric
fields are JS numbers embedded as `ℚ`. -/
structure PatternConfig where
  mode : Mode
  density : ℕ
  gridGap : ℚ
  minSize : ℚ
  maxSize : ℚ
  rotationRandomness : Bool
  colors : List String
  useRandomColor : Bool
  preventOverlap : Bool
  useMask : Bool
  showMaskBg : Bool
  enableAnim : Bool
  animAmplitude : ℚ
  animSpeed : ℚ
deriving Repr, Inhabited

/-- `ProcessedAsset` from `types.ts`; the decoded image handle is
represented by its source string (`img.src`). -/
structure ProcessedAsset where
  id : String
  type : AssetType
  imgSrc : String
  aspectRatio : ℚ
  viewBox : Option String
  vectorContent : Option String
deriving Repr, Inhabited

/-- The offscreen canvas produced by `createTintedCanvas`: it records
which asset was drawn, the fill color, and the target size. -/
structure TintedCanvas where
  assetId : String
  color : String
  w : ℚ
  h : ℚ
deriving Repr, Inhabited

/-- `LayoutItem` from `types.ts`.  `angle` and `animPhase` are produced
by the source as a rational multiple of `π`; the embedding stores the
rational coefficient (`anglePi`, resp. the raw sample `animPhaseRaw`)
and exposes the real value through `LayoutItem.angle` / `.phase`.
`id` keeps the raw `Math.random()` sample that the source stringifies. -/
structure LayoutItem where
  id : ℚ
  assetId : String
  x : ℚ
  y : ℚ
  w : ℚ
  h : ℚ
  anglePi : ℚ
  color : Option String
  cachedCanvas : Option TintedCanvas
  animPhaseRaw : ℚ
  animSpeedMul : ℚ
deriving Repr, Inhabited

/-- The item's rotation angle in radians: the stored coefficient times `π`. -/
noncomputable def LayoutItem.angle (it : LayoutItem) : ℝ :=
  (it.anglePi : ℝ) * Real.pi

/-- The item's animation phase `Math.random() * Math.PI * 2` in radians. -/
noncomputable def LayoutItem.phase (it : LayoutItem) : ℝ :=
  (it.animPhaseRaw : ℝ) * Real.pi * 2

/-- Mutable engine state: bound surface size, registry (insertion-ordered
map embedded as a list with distinct ids), and the optional mask pixel
buffer (`maskData`), a byte lookup indexed as RGBA quadruples. -/
structure Engine where
  width : ℕ
  height : ℕ
  assets : List ProcessedAsset
  maskData : Option (ℕ → ℕ)

/-- `this.assets.get(id)` on the registry map. -/
def lookupAsset (eng : Engine) (id : String) : Option ProcessedAsset :=
  eng.assets.find? (fun a => a.id == id)

/-- `Math.floor(r * n)` used to pick a uniformly random list index. -/
def pickIndex (r : ℚ) (n : ℕ) : ℕ :=
  (⌊r * (n : ℚ)⌋).toNat

/-- Linear RGBA index of the pixel containing the point `(x, y)`:
`(Math.floor(y) * width + Math.floor(x)) * 4`. -/
def pixIdx (eng : Engine) (x y : ℚ) : ℕ :=
  ((⌊y⌋).toNat * eng.width + (⌊x⌋).toNat) * 4

/-- `PatternEngine.checkMask`: out-of-bounds pixels are rejected, and an
in-bounds pixel passes iff it is sufficiently opaque (`alpha > 50`) and
sufficiently dark (mean channel brightness `< 200`). -/
def checkMask (eng : Engine) (x y : ℚ) : Bool :=
  match eng.maskData with
  | none => true
  | some d =>
    let px : ℤ := ⌊x⌋
    let py : ℤ := ⌊y⌋
    if px < 0 ∨ (eng.width : ℤ) ≤ px ∨ py < 0 ∨ (eng.height : ℤ) ≤ py then
      false
    else
      let idx := pixIdx eng x y
      let brightness : ℚ := ((d idx : ℚ) + (d (idx + 1) : ℚ) + (d (idx + 2) : ℚ)) / 3
      let alpha := d (idx + 3)
      decide (50 < alpha ∧ brightness < 200)

/-- Number of random samples the rotation branch of `addItem` consumes. -/
def rotSlots (cfg : PatternConfig) : ℕ :=
  if cfg.rotationRandomness then 1 else 0

/-- Angle coefficient of `π` chosen by `addItem` from the sample `r`:
grid mode uses `(Math.floor(r*4) * 90) * (π/180)`, random mode uses
`r * π * 2`, and without `rotationRandomness` the angle is `0`. -/
def mkAnglePi (cfg : PatternConfig) (r : ℚ) : ℚ :=
  if cfg.rotationRandomness then
    if cfg.mode = Mode.grid then ((⌊r * 4⌋ : ℚ) * 90) / 180 else r * 2
  else 0

/-- Number of random samples the color branch of `addItem` consumes. -/
def colorSlots (cfg : PatternConfig) : ℕ :=
  if cfg.useRandomColor ∧ cfg.colors ≠ [] then 1 else 0

/-- Palette color chosen by `addItem` from the sample `r`, when random
colors are enabled and the palette is non-empty. -/
def mkColor (cfg : PatternConfig) (r : ℚ) : Option String :=
  if cfg.useRandomColor ∧ cfg.colors ≠ [] then
    some (cfg.colors.getD (pickIndex r cfg.colors.length) (""))
  else none

/-- `PatternEngine.addItem` with the dimensions already resolved (the
grid call site passes `iconSize` and `iconSize / asset.aspectRatio`, the
random call site passes `w`/`h` directly, matching the two overloads).
Returns the pushed item together with the next random-stream index. -/
def mkItem (cfg : PatternConfig) (a : ProcessedAsset) (x y w h : ℚ)
    (s : ℕ → ℚ) (k : ℕ) : LayoutItem × ℕ :=
  let anglePi := mkAnglePi cfg (s k)
  let k₁ := k + rotSlots cfg
  let color := mkColor cfg (s k₁)
  let k₂ := k₁ + colorSlots cfg
  let cached := color.map (fun col => TintedCanvas.mk a.id col w h)
  (⟨s k₂, a.id, x, y, w, h, anglePi, color, cached, s (k₂ + 1),
    8 / 10 + s (k₂ + 2) * (4 / 10)⟩, k₂ + 3)

/-- Grid spacing `step = config.maxSize + config.gridGap`. -/
def gridStep (cfg : PatternConfig) : ℚ :=
  cfg.maxSize + cfg.gridGap

/-- `cols = Math.ceil(width / step) + 1`. -/
def gridCols (eng : Engine) (cfg : PatternConfig) : ℕ :=
  (⌈(eng.width : ℚ) / gridStep cfg⌉).toNat + 1

/-- `rows = Math.ceil(height / step) + 1`. -/
def gridRows (eng : Engine) (cfg : PatternConfig) : ℕ :=
  (⌈(eng.height : ℚ) / gridStep cfg⌉).toNat + 1

/-- `startX = (width - cols * step) / 2 + step / 2`. -/
def gridStartX (eng : Engine) (cfg : PatternConfig) : ℚ :=
  ((eng.width : ℚ) - (gridCols eng cfg : ℚ) * gridStep cfg) / 2 + gridStep cfg / 2

/-- `startY = (height - rows * step) / 2 + step / 2`. -/
def gridStartY (eng : Engine) (cfg : PatternConfig) : ℚ :=
  ((eng.height : ℚ) - (gridRows eng cfg : ℚ) * gridStep cfg) / 2 + gridStep cfg / 2

/-- The row-major traversal order of the two nested grid loops. -/
def gridCells (rows cols : ℕ) : List (ℕ × ℕ) :=
  (List.range rows).flatMap (fun r => (List.range cols).map (fun c => (r, c)))

/-- Body of the nested grid loops: for each cell compute its center,
skip it when masking rejects the center, otherwise pick a random asset
and push an item of width `maxSize` (height derived from aspect ratio). -/
def gridLoop (eng : Engine) (cfg : PatternConfig) (s : ℕ → ℚ) :
    List (ℕ × ℕ) → List LayoutItem → ℕ → List LayoutItem × ℕ
  | [], acc, k => (acc, k)
  | (r, c) :: rest, acc, k =>
    let x := gridStartX eng cfg + (c : ℚ) * gridStep cfg
    let y := gridStartY eng cfg + (r : ℚ) * gridStep cfg
    if cfg.useMask ∧ eng.maskData.isSome ∧ ¬ checkMask eng x y then
      gridLoop eng cfg s rest acc k
    else
      let a := eng.assets.getD (pickIndex (s k) eng.assets.length) default
      let p := mkItem cfg a x y cfg.maxSize (cfg.maxSize / a.aspectRatio) s (k + 1)
      gridLoop eng cfg s rest (acc ++ [p.1]) p.2

/-- Approximate collision radius `Math.max(w, h) / 2 * 0.8` of an item. -/
def radius (it : LayoutItem) : ℚ :=
  max it.w it.h / 2 * (8 / 10)

/-- Decidable form of the float comparison `Math.sqrt d < s` for a
non-negative radicand; justified against `Real.sqrt` by `sqrtLtB_iff`. -/
def sqrtLtB (d s : ℚ) : Bool :=
  decide (0 < s ∧ d < s ^ 2)

/-- Body of the random-mode rejection-sampling `while` loop, with the
remaining attempt budget as fuel (`attempts < maxAttempts` becomes
`0 < fuel`).  Each iteration samples a point, applies the mask test,
samples size and asset, applies the collision test, and on acceptance
pushes an item and counts it. -/
def randomLoop (eng : Engine) (cfg : PatternConfig) (s : ℕ → ℚ) :
    ℕ → ℕ → ℕ → List LayoutItem → List LayoutItem
  | 0, _, _, acc => acc
  | fuel + 1, count, k, acc =>
    if count < cfg.density then
      let x := s k * (eng.width : ℚ)
      let y := s (k + 1) * (eng.height : ℚ)
      if cfg.useMask ∧ eng.maskData.isSome ∧ ¬ checkMask eng x y then
        randomLoop eng cfg s fuel count (k + 2) acc
      else
        let size := s (k + 2) * (cfg.maxSize - cfg.minSize) + cfg.minSize
        let a := eng.assets.getD (pickIndex (s (k + 3)) eng.assets.length) default
        let w := size
        let h := size / a.aspectRatio
        if cfg.preventOverlap ∧
            acc.any (fun it =>
              sqrtLtB ((x - it.x) ^ 2 + (y - it.y) ^ 2)
                (max w h / 2 * (8 / 10) + radius it)) then
          randomLoop eng cfg s fuel count (k + 4) acc
        else
          let p := mkItem cfg a x y w h s (k + 4)
          randomLoop eng cfg s fuel (count + 1) p.2 (acc ++ [p.1])
    else acc

/-- `PatternEngine.generateLayout`: empty registry yields an empty
layout; grid mode walks the centered grid (empty when `step ≤ 0`);
random mode runs the rejection-sampling loop with budget `density * 50`. -/
def generateLayout (eng : Engine) (cfg : PatternConfig) (s : ℕ → ℚ) :
    List LayoutItem :=
  if eng.assets.length = 0 then []
  else if cfg.mode = Mode.grid then
    if gridStep cfg ≤ 0 then []
    else
      (gridLoop eng cfg s (gridCells (gridRows eng cfg) (gridCols eng cfg)) [] 0).1
  else
    randomLoop eng cfg s (cfg.density * 50) 0 0 []

/-- Derived animation speed `const speed = config.animSpeed * 0.002`. -/
def speedFactor (cfg : PatternConfig) : ℚ :=
  cfg.animSpeed * (2 / 1000)

/-- Vertical animation offset of `render`:
`Math.sin(time * speed * item.animSpeedMul + item.animPhase) * amp`
when animation is enabled, else `0`. -/
noncomputable def animDY (cfg : PatternConfig) (it : LayoutItem) (t : ℝ) : ℝ :=
  if cfg.enableAnim then
    Real.sin (t * (speedFactor cfg : ℝ) * (it.animSpeedMul : ℝ) + it.phase) *
      (cfg.animAmplitude : ℝ)
  else 0

/-- Horizontal animation offset of `render`:
`Math.cos(time * speed * item.animSpeedMul * 0.7 + item.animPhase) * (amp * 0.5)`
when animation is enabled, else `0`. -/
noncomputable def animDX (cfg : PatternConfig) (it : LayoutItem) (t : ℝ) : ℝ :=
  if cfg.enableAnim then
    Real.cos (t * (speedFactor cfg : ℝ) * (it.animSpeedMul : ℝ) * (7 / 10) + it.phase) *
      ((cfg.animAmplitude : ℝ) * (5 / 10))
  else 0

/-- Rotational animation wobble of `render`:
`Math.sin(time * speed * item.animSpeedMul * 0.5) * 0.05`
when animation is enabled, else `0`. -/
noncomputable def animDRot (cfg : PatternConfig) (it : LayoutItem) (t : ℝ) : ℝ :=
  if cfg.enableAnim then
    Real.sin (t * (speedFactor cfg : ℝ) * (it.animSpeedMul : ℝ) * (5 / 10)) * (5 / 100)
  else 0

/-- What a per-item draw reads its pixels from: the cached tinted canvas
(high-performance path) or the registry asset (standard path). -/
inductive DrawSource where
  | cached (c : TintedCanvas)
  | asset (id : String)

/-- One `drawImage` call issued by the per-item render loop: translation
to `(x+dx, y+dy)`, rotation by `angle+dRot`, destination offset
`(-w/2, -h/2)`, and explicit destination size on the standard path. -/
structure ItemDraw where
  source : DrawSource
  cx : ℝ
  cy : ℝ
  rot : ℝ
  offX : ℚ
  offY : ℚ
  dw : Option ℚ
  dh : Option ℚ

/-- Per-item body of `PatternEngine.render`: items with a cached tinted
canvas are drawn from the cache; otherwise the asset is looked up in the
registry and the item is silently skipped when it is absent. -/
noncomputable def renderItem (eng : Engine) (cfg : PatternConfig) (t : ℝ)
    (it : LayoutItem) : Option ItemDraw :=
  match it.cachedCanvas with
  | some c =>
    some ⟨DrawSource.cached c, (it.x : ℝ) + animDX cfg it t,
      (it.y : ℝ) + animDY cfg it t, it.angle + animDRot cfg it t,
      -it.w / 2, -it.h / 2, none, none⟩
  | none =>
    match lookupAsset eng it.assetId with
    | some a =>
      some ⟨DrawSource.asset a.id, (it.x : ℝ) + animDX cfg it t,
        (it.y : ℝ) + animDY cfg it t, it.angle + animDRot cfg it t,
        -it.w / 2, -it.h / 2, some it.w, some it.h⟩
    | none => none

/-- `PatternEngine.render` as the list of per-item draw calls it issues
after clearing the surface (the clear and the optional translucent mask
background are surface side effects carrying no item data and are
elided from the command list). -/
noncomputable def render (eng : Engine) (cfg : PatternConfig) (t : ℝ)
    (items : List LayoutItem) : List ItemDraw :=
  items.filterMap (renderItem eng cfg t)

/-- One `<g>` group of the exported SVG document: the translation,
rotation in degrees, and the nested `<svg>` viewport (vector path, with
viewBox / optional fill / inlined body) or `<image>` element (raster
path). -/
inductive SVGEntry where
  | vectorGroup (x y deg childX childY childW childH : ℚ)
      (viewBox : String) (colorAttr : Option String) (body : String)
  | imageGroup (x y deg childX childY childW childH : ℚ) (src : String)
deriving Repr

/-- The exported document: explicit canvas-sized shell plus one group
per exportable item. -/
structure SVGDoc where
  width : ℕ
  height : ℕ
  entries : List SVGEntry
deriving Repr

/-- JS truthiness of the optional strings tested by `exportSVG`
(`asset.vectorContent`, `item.color`): absent or empty is falsy. -/
def strTruthy : Option String → Bool
  | none => false
  | some st => decide (st ≠ "")

/-- The `fill` attribute emitted for an item: its color when truthy. -/
def colorAttrOf (it : LayoutItem) : Option String :=
  if strTruthy it.color then it.color else none

/-- Per-item body of `PatternEngine.exportSVG`: skip items whose asset
is missing; vector assets with truthy `vectorContent` become a nested
viewport group, everything else an image group.  `deg` is
`item.angle * (180 / Math.PI)`, which for a stored coefficient
`anglePi` of `π` is exactly `anglePi * 180`. -/
def exportItem (eng : Engine) (it : LayoutItem) : Option SVGEntry :=
  match lookupAsset eng it.assetId with
  | none => none
  | some a =>
    let deg := it.anglePi * 180
    if a.type = AssetType.svg ∧ strTruthy a.vectorContent then
      some (SVGEntry.vectorGroup it.x it.y deg (-it.w / 2) (-it.h / 2) it.w it.h
        (a.viewBox.getD ("undefined")) (colorAttrOf it) (a.vectorContent.getD ("")))
    else
      some (SVGEntry.imageGroup it.x it.y deg (-it.w / 2) (-it.h / 2) it.w it.h
        a.imgSrc)

/-- `PatternEngine.exportSVG`. -/
def exportSVG (eng : Engine) (items : List LayoutItem) : SVGDoc :=
  ⟨eng.width, eng.height, items.filterMap (exportItem eng)⟩

/-- The contain-fit rectangle `(drawW, drawH, drawX, drawY)` computed by
`PatternEngine.setMask` before rasterizing the reference image. -/
def maskDrawRect (W H imgW imgH : ℚ) : ℚ × ℚ × ℚ × ℚ :=
  let imgRatio := imgW / imgH
  let screenRatio := W / H
  let wh : ℚ × ℚ :=
    if screenRatio > imgRatio then (H * (9 / 10) * imgRatio, H * (9 / 10))
    else (W * (9 / 10), W * (9 / 10) / imgRatio)
  (wh.1, wh.2, (W - wh.1) / 2, (H - wh.2) / 2)

/-! ### Shared lemmas -/

lemma sqrtLtB_false_le {d s : ℚ} (h : sqrtLtB d s = false) (hd : 0 ≤ d) :
    (s : ℝ) ≤ Real.sqrt (d : ℝ) := by
  simp only [sqrtLtB, decide_eq_false_iff_not, not_and, not_lt] at h
  rcases le_or_lt s 0 with hs | hs
  · calc (s : ℝ) ≤ 0 := by exact_mod_cast hs
    _ ≤ Real.sqrt (d : ℝ) := Real.sqrt_nonneg _
  · have hsq : (s : ℚ) ^ 2 ≤ d := h hs
    have : Real.sqrt ((s : ℝ) ^ 2) ≤ Real.sqrt (d : ℝ) := by
      apply Real.sqrt_le_sqrt
      exact_mod_cast hsq
    rwa [Real.sqrt_sq (le_of_lt (by exact_mod_cast hs))] at this

lemma pickIndex_lt {r : ℚ} {n : ℕ} (h0 : 0 ≤ r) (h1 : r < 1) (hn : 0 < n) :
    pickIndex r n < n := by
  have hlt : ⌊r * (n : ℚ)⌋ < (n : ℤ) := by
    apply Int.floor_lt.mpr
    push_cast
    calc r * (n : ℚ) < 1 * (n : ℚ) := by
          apply mul_lt_mul_of_pos_right h1
          exact_mod_cast hn
    _ = (n : ℚ) := one_mul _
  unfold pickIndex
  omega

lemma getD_mem_of_lt {α : Type} (l : List α) (i : ℕ) (d : α)
    (h : i < l.length) : l.getD i d ∈ l := by
  rw [List.getD_eq_getElem?_getD, List.getElem?_eq_getElem h]
  exact List.getElem_mem h

/-- With masking off (or no mask built) and overlap prevention off, each
loop iteration of the random mode places exactly one item. -/
lemma randomLoop_length_noReject (eng : Engine) (cfg : PatternConfig) (s : ℕ → ℚ)
    (hmask : cfg.useMask = false ∨ eng.maskData = none)
    (hov : cfg.preventOverlap = false) :
    ∀ (fuel count k : ℕ) (acc : List LayoutItem),
      (randomLoop eng cfg s fuel count k acc).length =
        acc.length + min (cfg.density - count) fuel := by
  intro fuel
  induction fuel with
  | zero => intro count k acc; simp [randomLoop]
  | succ fuel ih =>
    intro count k acc
    by_cases hcount : count < cfg.density
    · have hmaskguard : ¬ (cfg.useMask ∧ eng.maskData.isSome ∧
          ¬ checkMask eng (s k * (eng.width : ℚ)) (s (k + 1) * (eng.height : ℚ))) := by
        rintro ⟨h1, h2, _⟩
        rcases hmask with hm | hm
        · rw [hm] at h1; exact Bool.noConfusion h1
        · rw [hm] at h2; exact Bool.noConfusion h2
      simp only [randomLoop]
      rw [if_pos hcount, if_neg hmaskguard, if_neg (by rintro ⟨h1, _⟩; rw [hov] at h1; exact Bool.noConfusion h1)]
      rw [ih]
      simp only [List.length_append, List.length_cons, List.length_nil]
      omega
    · simp only [randomLoop]
      rw [if_neg hcount]
      omega

/-- C1: in Random mode with a non-empty motif set, masking disabled or
no mask built, and overlap prevention disabled, `generateLayout` returns
exactly `density` items: the `50 × density` attempt budget is never
exhausted because every attempt places an item. -/
theorem random_mode_returns_exactly_density (eng : Engine) (cfg : PatternConfig)
    (s : ℕ → ℚ) (hmode : cfg.mode = Mode.random) (hpos : 0 < cfg.density)
    (hassets : eng.assets ≠ [])
    (hmask : cfg.useMask = false ∨ eng.maskData = none)
    (hov : cfg.preventOverlap = false) :
    (generateLayout eng cfg s).length = cfg.density := by
  unfold generateLayout
  rw [if_neg (by simpa using hassets), if_neg (by rw [hmode]; decide)]
  rw [randomLoop_length_noReject eng cfg s hmask hov]
  simp only [List.length_nil, Nat.sub_zero, Nat.zero_add]
  omega

/-- Witness for C1 at a concrete engine, configuration and sample stream. -/
theorem random_mode_returns_exactly_density_witness :
    (generateLayout
      ⟨100, 100, [⟨"a", AssetType.svg, "", 1, none, none⟩], none⟩
      ⟨Mode.random, 3, 10, 10, 20, false, [], false, false, false, true, false, 15, 20⟩
      (fun _ => 1 / 2)).length = 3 :=
  random_mode_returns_exactly_density _ _ _ rfl (by decide)
    (by simp) (Or.inl rfl) rfl

/-- Two items are separated by at least the sum of their approximate
collision radii. -/
def Separated (a b : LayoutItem) : Prop :=
  ((radius a : ℝ) + (radius b : ℝ)) ≤
    Real.sqrt (((a.x - b.x) ^ 2 + (a.y - b.y) ^ 2 : ℚ) : ℝ)

lemma mkItem_x (cfg : PatternConfig) (a : ProcessedAsset) (x y w h : ℚ)
    (s : ℕ → ℚ) (k : ℕ) : (mkItem cfg a x y w h s k).1.x = x := rfl

lemma mkItem_y (cfg : PatternConfig) (a : ProcessedAsset) (x y w h : ℚ)
    (s : ℕ → ℚ) (k : ℕ) : (mkItem cfg a x y w h s k).1.y = y := rfl

lemma mkItem_w (cfg : PatternConfig) (a : ProcessedAsset) (x y w h : ℚ)
    (s : ℕ → ℚ) (k : ℕ) : (mkItem cfg a x y w h s k).1.w = w := rfl

lemma mkItem_h (cfg : PatternConfig) (a : ProcessedAsset) (x y w h : ℚ)
    (s : ℕ → ℚ) (k : ℕ) : (mkItem cfg a x y w h s k).1.h = h := rfl

lemma mkItem_assetId (cfg : PatternConfig) (a : ProcessedAsset) (x y w h : ℚ)
    (s : ℕ → ℚ) (k : ℕ) : (mkItem cfg a x y w h s k).1.assetId = a.id := rfl

lemma mkItem_anglePi (cfg : PatternConfig) (a : ProcessedAsset) (x y w h : ℚ)
    (s : ℕ → ℚ) (k : ℕ) :
    (mkItem cfg a x y w h s k).1.anglePi = mkAnglePi cfg (s k) := rfl

lemma separated_append_one {acc : List LayoutItem} {p : LayoutItem}
    (h : List.Pairwise Separated acc) (hall : ∀ it ∈ acc, Separated it p) :
    List.Pairwise Separated (acc ++ [p]) :=
  List.pairwise_append.mpr ⟨h, List.pairwise_singleton _ _, by simpa using hall⟩

/-- An accepted random-mode candidate is separated from every
already-placed item. -/
lemma separated_of_rejectFalse {x y w h : ℚ} {it : LayoutItem}
    (hf : sqrtLtB ((x - it.x) ^ 2 + (y - it.y) ^ 2)
      (max w h / 2 * (8 / 10) + radius it) = false)
    {p : LayoutItem} (hx : p.x = x) (hy : p.y = y) (hw : p.w = w) (hh : p.h = h) :
    Separated it p := by
  have hd : (0 : ℚ) ≤ (x - it.x) ^ 2 + (y - it.y) ^ 2 :=
    add_nonneg (sq_nonneg _) (sq_nonneg _)
  have hle := sqrtLtB_false_le hf hd
  unfold Separated radius
  rw [hx, hy, hw, hh]
  have harg : ((it.x - x) ^ 2 + (it.y - y) ^ 2 : ℚ) =
      ((x - it.x) ^ 2 + (y - it.y) ^ 2) := by ring
  rw [harg]
  calc (↑(max it.w it.h / 2 * (8 / 10)) : ℝ) + ↑(max w h / 2 * (8 / 10)) =
        (↑(max w h / 2 * (8 / 10) + max it.w it.h / 2 * (8 / 10)) : ℝ) := by
        push_cast; ring
    _ ≤ _ := hle

/-- With overlap prevention on, the random-mode loop preserves pairwise
separation of the accumulated items. -/
lemma randomLoop_pairwise (eng : Engine) (cfg : PatternConfig) (s : ℕ → ℚ)
    (hov : cfg.preventOverlap = true) :
    ∀ (fuel count k : ℕ) (acc : List LayoutItem), List.Pairwise Separated acc →
      List.Pairwise Separated (randomLoop eng cfg s fuel count k acc) := by
  intro fuel
  induction fuel with
  | zero => intro count k acc hacc; simpa [randomLoop] using hacc
  | succ fuel ih =>
    intro count k acc hacc
    simp only [randomLoop]
    split
    case isFalse => exact hacc
    case isTrue hcount =>
    split
    case isTrue => exact ih _ _ _ hacc
    case isFalse hm =>
    split
    case isTrue => exact ih _ _ _ hacc
    case isFalse hrej =>
    apply ih
    apply separated_append_one hacc
    intro it hit
    have hany : ¬ (acc.any (fun it =>
        sqrtLtB ((s k * (eng.width : ℚ) - it.x) ^ 2 +
            (s (k + 1) * (eng.height : ℚ) - it.y) ^ 2)
          (max (s (k + 2) * (cfg.maxSize - cfg.minSize) + cfg.minSize)
              ((s (k + 2) * (cfg.maxSize - cfg.minSize) + cfg.minSize) /
                (eng.assets.getD (pickIndex (s (k + 3)) eng.assets.length)
                  default).aspectRatio) / 2 * (8 / 10) + radius it)) = true) :=
      fun h => hrej ⟨hov, h⟩
    simp only [List.any_eq_true, not_exists, not_and] at hany
    have hf := hany it hit
    rw [Bool.not_eq_true] at hf
    exact separated_of_rejectFalse hf (mkItem_x ..) (mkItem_y ..) (mkItem_w ..) (mkItem_h ..)

/-- The random-mode layout list is pairwise separated when overlap
prevention is enabled. -/
lemma generateLayout_pairwise (eng : Engine) (cfg : PatternConfig) (s : ℕ → ℚ)
    (hmode : cfg.mode = Mode.random) (hov : cfg.preventOverlap = true) :
    List.Pairwise Separated (generateLayout eng cfg s) := by
  unfold generateLayout
  rw [hmode]
  split
  · exact List.Pairwise.nil
  · rw [if_neg (by decide)]
    exact randomLoop_pairwise eng cfg s hov _ _ _ _ List.Pairwise.nil

/-- C2: with overlap prevention enabled, every pair of distinct items in
the Random-mode layout is at Euclidean distance at least the sum of the
two approximate radii `0.8 × max(w,h)/2`. -/
theorem overlap_prevention_pairwise_distance (eng : Engine) (cfg : PatternConfig)
    (s : ℕ → ℚ) (hmode : cfg.mode = Mode.random) (hov : cfg.preventOverlap = true)
    (i j : ℕ) (hi : i < (generateLayout eng cfg s).length)
    (hj : j < (generateLayout eng cfg s).length) (hne : i ≠ j) :
    Real.sqrt (((((generateLayout eng cfg s).get ⟨i, hi⟩).x : ℝ) -
          (((generateLayout eng cfg s).get ⟨j, hj⟩).x : ℝ)) ^ 2 +
        ((((generateLayout eng cfg s).get ⟨i, hi⟩).y : ℝ) -
          (((generateLayout eng cfg s).get ⟨j, hj⟩).y : ℝ)) ^ 2) ≥
      (8 / 10) * max (((generateLayout eng cfg s).get ⟨i, hi⟩).w : ℝ)
          (((generateLayout eng cfg s).get ⟨i, hi⟩).h : ℝ) / 2 +
        (8 / 10) * max (((generateLayout eng cfg s).get ⟨j, hj⟩).w : ℝ)
          (((generateLayout eng cfg s).get ⟨j, hj⟩).h : ℝ) / 2 := by
  have hpw := generateLayout_pairwise eng cfg s hmode hov
  rw [List.pairwise_iff_get] at hpw
  set L := generateLayout eng cfg s with hL
  have key : ∀ (p q : Fin L.length), p < q →
      Real.sqrt (((L.get p).x - (L.get q).x : ℝ) ^ 2 +
          ((L.get p).y - (L.get q).y : ℝ) ^ 2) ≥
        (8 / 10) * max ((L.get p).w : ℝ) ((L.get p).h : ℝ) / 2 +
          (8 / 10) * max ((L.get q).w : ℝ) ((L.get q).h : ℝ) / 2 := by
    intro p q hpq
    have hsep := hpw p q hpq
    unfold Separated radius at hsep
    calc (8 / 10) * max ((L.get p).w : ℝ) ((L.get p).h : ℝ) / 2 +
          (8 / 10) * max ((L.get q).w : ℝ) ((L.get q).h : ℝ) / 2 =
        ((max (L.get p).w (L.get p).h / 2 * (8 / 10) : ℚ) : ℝ) +
          ((max (L.get q).w (L.get q).h / 2 * (8 / 10) : ℚ) : ℝ) := by
          push_cast; ring
    _ ≤ Real.sqrt ((((L.get p).x - (L.get q).x) ^ 2 +
          ((L.get p).y - (L.get q).y) ^ 2 : ℚ) : ℝ) := hsep
    _ = Real.sqrt (((L.get p).x - (L.get q).x : ℝ) ^ 2 +
          ((L.get p).y - (L.get q).y : ℝ) ^ 2) := by push_cast; ring_nf
  rcases lt_or_gt_of_ne hne with hlt | hgt
  · exact key ⟨i, hi⟩ ⟨j, hj⟩ hlt
  · have h := key ⟨j, hj⟩ ⟨i, hi⟩ hgt
    calc Real.sqrt (((L.get ⟨i, hi⟩).x - (L.get ⟨j, hj⟩).x : ℝ) ^ 2 +
          ((L.get ⟨i, hi⟩).y - (L.get ⟨j, hj⟩).y : ℝ) ^ 2) =
        Real.sqrt (((L.get ⟨j, hj⟩).x - (L.get ⟨i, hi⟩).x : ℝ) ^ 2 +
          ((L.get ⟨j, hj⟩).y - (L.get ⟨i, hi⟩).y : ℝ) ^ 2) := by ring_nf
    _ ≥ _ := h
    _ = _ := by ring

/-- Concrete engine for the C2 witness. -/
def W2eng : Engine := ⟨1000, 1000, [⟨"a", AssetType.raster, "", 1, none, none⟩], none⟩

/-- Concrete configuration for the C2 witness. -/
def W2cfg : PatternConfig :=
  ⟨Mode.random, 2, 0, 10, 10, false, [], false, true, false, false, false, 0, 0⟩

/-- Concrete sample stream for the C2 witness. -/
def W2s : ℕ → ℚ := fun n => ((n % 10 : ℕ) : ℚ) / 10

lemma mkItem_snd (cfg : PatternConfig) (a : ProcessedAsset) (x y w h : ℚ)
    (s : ℕ → ℚ) (k : ℕ) :
    (mkItem cfg a x y w h s k).2 = k + rotSlots cfg + colorSlots cfg + 3 := rfl

/-- One iteration of the random-mode loop that terminates because the
item target is reached. -/
lemma randomLoop_stop (eng : Engine) (cfg : PatternConfig) (s : ℕ → ℚ)
    (fuel count k : ℕ) (acc : List LayoutItem) (h : ¬ count < cfg.density) :
    randomLoop eng cfg s (fuel + 1) count k acc = acc := by
  simp only [randomLoop]
  rw [if_neg h]

/-- One iteration of the random-mode loop that accepts its candidate. -/
lemma randomLoop_accept (eng : Engine) (cfg : PatternConfig) (s : ℕ → ℚ)
    (fuel count k : ℕ) (acc : List LayoutItem)
    (hcount : count < cfg.density)
    (hmask : ¬ (cfg.useMask ∧ eng.maskData.isSome ∧
      ¬ checkMask eng (s k * (eng.width : ℚ)) (s (k + 1) * (eng.height : ℚ))))
    (hov : ¬ (cfg.preventOverlap ∧ acc.any (fun it =>
      sqrtLtB ((s k * (eng.width : ℚ) - it.x) ^ 2 +
          (s (k + 1) * (eng.height : ℚ) - it.y) ^ 2)
        (max (s (k + 2) * (cfg.maxSize - cfg.minSize) + cfg.minSize)
            ((s (k + 2) * (cfg.maxSize - cfg.minSize) + cfg.minSize) /
              (eng.assets.getD (pickIndex (s (k + 3)) eng.assets.length)
                default).aspectRatio) / 2 * (8 / 10) + radius it)) = true)) :
    randomLoop eng cfg s (fuel + 1) count k acc =
      randomLoop eng cfg s fuel (count + 1)
        (mkItem cfg (eng.assets.getD (pickIndex (s (k + 3)) eng.assets.length) default)
          (s k * (eng.width : ℚ)) (s (k + 1) * (eng.height : ℚ))
          (s (k + 2) * (cfg.maxSize - cfg.minSize) + cfg.minSize)
          ((s (k + 2) * (cfg.maxSize - cfg.minSize) + cfg.minSize) /
            (eng.assets.getD (pickIndex (s (k + 3)) eng.assets.length)
              default).aspectRatio) s (k + 4)).2
        (acc ++ [(mkItem cfg
          (eng.assets.getD (pickIndex (s (k + 3)) eng.assets.length) default)
          (s k * (eng.width : ℚ)) (s (k + 1) * (eng.height : ℚ))
          (s (k + 2) * (cfg.maxSize - cfg.minSize) + cfg.minSize)
          ((s (k + 2) * (cfg.maxSize - cfg.minSize) + cfg.minSize) /
            (eng.assets.getD (pickIndex (s (k + 3)) eng.assets.length)
              default).aspectRatio) s (k + 4)).1]) := by
  simp only [randomLoop]
  rw [if_pos hcount, if_neg hmask, if_neg hov]

lemma W2s_bounds (n : ℕ) : 0 ≤ W2s n ∧ W2s n < 1 := by
  constructor
  · unfold W2s; positivity
  · unfold W2s
    rw [div_lt_one (by norm_num)]
    exact_mod_cast Nat.mod_lt n (by norm_num)

lemma pickIndex_one {r : ℚ} (h0 : 0 ≤ r) (h1 : r < 1) : pickIndex r 1 = 0 :=
  Nat.lt_one_iff.mp (pickIndex_lt h0 h1 one_pos)

/-- The concrete C2 layout contains exactly two items. -/
lemma W2_layout_length : (generateLayout W2eng W2cfg W2s).length = 2 := by
  have h0 : generateLayout W2eng W2cfg W2s = randomLoop W2eng W2cfg W2s 100 0 0 [] := by
    unfold generateLayout
    rw [if_neg (by norm_num [W2eng]), if_neg (by norm_num [W2cfg]; decide)]
    norm_num [W2cfg]
  rw [h0, show (100 : ℕ) = 99 + 1 from rfl,
    randomLoop_accept _ _ _ _ _ _ _ (by norm_num [W2cfg])
      (by rintro ⟨hu, -, -⟩; rw [show W2cfg.useMask = false from rfl] at hu; exact Bool.noConfusion hu)
      (by rintro ⟨-, hany⟩; simp at hany)]
  rw [mkItem_snd, show (0 : ℕ) + 4 + rotSlots W2cfg + colorSlots W2cfg + 3 = 7 by
    norm_num [rotSlots, colorSlots, W2cfg]]
  rw [show (99 : ℕ) = 98 + 1 from rfl,
    randomLoop_accept _ _ _ _ _ _ _ (by norm_num [W2cfg])
      (by rintro ⟨hu, -, -⟩; rw [show W2cfg.useMask = false from rfl] at hu; exact Bool.noConfusion hu)
      (by
        rintro ⟨-, hany⟩
        simp only [List.nil_append, List.any_cons, List.any_nil, Bool.or_false] at hany
        rw [mkItem_x, mkItem_y] at hany
        unfold sqrtLtB at hany
        rw [decide_eq_true_eq] at hany
        rcases hany with ⟨-, hlt⟩
        unfold radius at hlt
        rw [mkItem_w, mkItem_h] at hlt
        norm_num [W2cfg, W2eng, pickIndex_one, W2s] at hlt)]
  rw [show (98 : ℕ) = 97 + 1 from rfl, randomLoop_stop _ _ _ _ _ _ _ (by norm_num [W2cfg])]
  simp

/-- Witness for C2: the separation bound instantiated at the two items
of a concrete two-item layout. -/
theorem overlap_prevention_pairwise_distance_witness :
    Real.sqrt (((((generateLayout W2eng W2cfg W2s).get
            ⟨0, by rw [W2_layout_length]; omega⟩).x : ℝ) -
          (((generateLayout W2eng W2cfg W2s).get
            ⟨1, by rw [W2_layout_length]; omega⟩).x : ℝ)) ^ 2 +
        ((((generateLayout W2eng W2cfg W2s).get
            ⟨0, by rw [W2_layout_length]; omega⟩).y : ℝ) -
          (((generateLayout W2eng W2cfg W2s).get
            ⟨1, by rw [W2_layout_length]; omega⟩).y : ℝ)) ^ 2) ≥
      (8 / 10) * max (((generateLayout W2eng W2cfg W2s).get
            ⟨0, by rw [W2_layout_length]; omega⟩).w : ℝ)
          (((generateLayout W2eng W2cfg W2s).get
            ⟨0, by rw [W2_layout_length]; omega⟩).h : ℝ) / 2 +
        (8 / 10) * max (((generateLayout W2eng W2cfg W2s).get
            ⟨1, by rw [W2_layout_length]; omega⟩).w : ℝ)
          (((generateLayout W2eng W2cfg W2s).get
            ⟨1, by rw [W2_layout_length]; omega⟩).h : ℝ) / 2 :=
  overlap_prevention_pairwise_distance W2eng W2cfg W2s rfl rfl 0 1
    (by rw [W2_layout_length]; omega) (by rw [W2_layout_length]; omega)
    (by omega)

/-- With masking disabled or no mask built, the per-cell mask guard
never fires. -/
lemma noMask_guard (eng : Engine) (cfg : PatternConfig)
    (hmask : cfg.useMask = false ∨ eng.maskData = none) (x y : ℚ) :
    ¬ (cfg.useMask ∧ eng.maskData.isSome ∧ ¬ checkMask eng x y) := by
  rintro ⟨h1, h2, -⟩
  rcases hmask with hm | hm
  · rw [hm] at h1; exact Bool.noConfusion h1
  · rw [hm] at h2; exact Bool.noConfusion h2

/-- The grid loop only appends: its result is the accumulator followed
by the items it generates itself. -/
lemma gridLoop_acc (eng : Engine) (cfg : PatternConfig) (s : ℕ → ℚ) :
    ∀ (cells : List (ℕ × ℕ)) (acc : List LayoutItem) (k : ℕ),
      (gridLoop eng cfg s cells acc k).1 = acc ++ (gridLoop eng cfg s cells [] k).1 := by
  intro cells
  induction cells with
  | nil => intro acc k; simp [gridLoop]
  | cons rc rest ih =>
    intro acc k
    obtain ⟨r, c⟩ := rc
    simp only [gridLoop]
    by_cases hg : cfg.useMask ∧ eng.maskData.isSome ∧
        ¬ checkMask eng (gridStartX eng cfg + (c : ℚ) * gridStep cfg)
          (gridStartY eng cfg + (r : ℚ) * gridStep cfg)
    · rw [if_pos hg, if_pos hg, ih acc k]
    · rw [if_neg hg, if_neg hg, ih, ih ([] ++ [_])]
      simp

/-- With no mask, the grid loop emits one item per cell. -/
lemma gridLoop_length (eng : Engine) (cfg : PatternConfig) (s : ℕ → ℚ)
    (hmask : cfg.useMask = false ∨ eng.maskData = none) :
    ∀ (cells : List (ℕ × ℕ)) (acc : List LayoutItem) (k : ℕ),
      (gridLoop eng cfg s cells acc k).1.length = acc.length + cells.length := by
  intro cells
  induction cells with
  | nil => intro acc k; simp [gridLoop]
  | cons rc rest ih =>
    intro acc k
    obtain ⟨r, c⟩ := rc
    simp only [gridLoop]
    rw [if_neg (noMask_guard eng cfg hmask _ _), ih]
    simp only [List.length_append, List.length_cons, List.length_nil]
    omega

/-- With no mask, the `i`-th item of the grid loop sits at the center of
the `i`-th traversed cell. -/
lemma gridLoop_get? (eng : Engine) (cfg : PatternConfig) (s : ℕ → ℚ)
    (hmask : cfg.useMask = false ∨ eng.maskData = none) :
    ∀ (cells : List (ℕ × ℕ)) (k i : ℕ) (rc : ℕ × ℕ), cells.get? i = some rc →
      ∃ it : LayoutItem, (gridLoop eng cfg s cells [] k).1.get? i = some it ∧
        it.x = gridStartX eng cfg + (rc.2 : ℚ) * gridStep cfg ∧
        it.y = gridStartY eng cfg + (rc.1 : ℚ) * gridStep cfg := by
  intro cells
  induction cells with
  | nil => intro k i rc hrc; exact absurd hrc (by simp)
  | cons rc0 rest ih =>
    intro k i rc hrc
    obtain ⟨r, c⟩ := rc0
    have hrw : (gridLoop eng cfg s ((r, c) :: rest) [] k).1 =
        (mkItem cfg (eng.assets.getD (pickIndex (s k) eng.assets.length) default)
          (gridStartX eng cfg + (c : ℚ) * gridStep cfg)
          (gridStartY eng cfg + (r : ℚ) * gridStep cfg) cfg.maxSize
          (cfg.maxSize /
            (eng.assets.getD (pickIndex (s k) eng.assets.length) default).aspectRatio)
          s (k + 1)).1 ::
        (gridLoop eng cfg s rest []
          (mkItem cfg (eng.assets.getD (pickIndex (s k) eng.assets.length) default)
            (gridStartX eng cfg + (c : ℚ) * gridStep cfg)
            (gridStartY eng cfg + (r : ℚ) * gridStep cfg) cfg.maxSize
            (cfg.maxSize /
              (eng.assets.getD (pickIndex (s k) eng.assets.length) default).aspectRatio)
            s (k + 1)).2).1 := by
      simp only [gridLoop]
      rw [if_neg (noMask_guard eng cfg hmask _ _), gridLoop_acc]
      simp
    rw [hrw]
    match i with
    | 0 =>
      have hrc0 : rc = (r, c) := by
        simpa using hrc.symm
      subst hrc0
      refine ⟨_, rfl, ?_, ?_⟩
      · rw [mkItem_x]
      · rw [mkItem_y]
    | Nat.succ i' =>
      have hrc' : rest.get? i' = some rc := by
        simpa using hrc
      obtain ⟨it, hget, hx, hy⟩ := ih _ i' rc hrc'
      exact ⟨it, by simpa using hget, hx, hy⟩

/-- The nested row/column traversal, flattened to a single index. -/
lemma gridCells_eq (rows cols : ℕ) :
    gridCells rows cols =
      (List.range (rows * cols)).map (fun i => (i / cols, i % cols)) := by
  induction rows with
  | zero => simp [gridCells]
  | succ n ih =>
    unfold gridCells at ih ⊢
    rw [List.range_succ, List.flatMap_append, ih, Nat.succ_mul, List.range_add,
      List.map_append]
    congr 1
    simp only [List.flatMap_cons, List.flatMap_nil, List.append_nil, List.map_map]
    apply List.map_congr_left
    intro c hc
    have hlt : c < cols := List.mem_range.mp hc
    have hcols : 0 < cols := Nat.pos_of_ne_zero (by omega)
    have h1 : (n * cols + c) / cols = n := by
      rw [Nat.mul_comm, Nat.mul_add_div hcols, Nat.div_eq_of_lt hlt]
      omega
    have h2 : (n * cols + c) % cols = c := by
      rw [Nat.mul_comm, Nat.mul_add_mod, Nat.mod_eq_of_lt hlt]
    simp [Function.comp_apply, h1, h2]

lemma gridCells_length (rows cols : ℕ) :
    (gridCells rows cols).length = rows * cols := by
  rw [gridCells_eq]; simp

lemma gridCells_get? (rows cols i : ℕ) (hi : i < rows * cols) :
    (gridCells rows cols).get? i = some (i / cols, i % cols) := by
  rw [gridCells_eq]
  simp [List.get?_eq_getElem?, List.getElem?_map, List.getElem?_range, hi]

/-- The whole-grid count lower bound `cols * step ≥ width + step` (and
the same for rows), from `cols = ⌈width/step⌉ + 1`. -/
lemma gridCols_mul_step (eng : Engine) (cfg : PatternConfig)
    (hstep : 0 < gridStep cfg) :
    (eng.width : ℚ) + gridStep cfg ≤ (gridCols eng cfg : ℚ) * gridStep cfg := by
  have hnn : 0 ≤ ⌈(eng.width : ℚ) / gridStep cfg⌉ :=
    Int.ceil_nonneg (by positivity)
  have hcast : ((gridCols eng cfg : ℕ) : ℚ) =
      ((⌈(eng.width : ℚ) / gridStep cfg⌉ : ℤ) : ℚ) + 1 := by
    have h3 : ((gridCols eng cfg : ℕ) : ℤ) =
        ⌈(eng.width : ℚ) / gridStep cfg⌉ + 1 := by
      unfold gridCols
      push_cast
      omega
    exact_mod_cast congrArg (fun z : ℤ => (z : ℚ)) h3
  rw [hcast]
  have hle : (eng.width : ℚ) / gridStep cfg ≤
      ((⌈(eng.width : ℚ) / gridStep cfg⌉ : ℤ) : ℚ) := Int.le_ceil _
  have := mul_le_mul_of_nonneg_right hle (le_of_lt hstep)
  rw [div_mul_cancel₀ _ (ne_of_gt hstep)] at this
  nlinarith

lemma gridRows_mul_step (eng : Engine) (cfg : PatternConfig)
    (hstep : 0 < gridStep cfg) :
    (eng.height : ℚ) + gridStep cfg ≤ (gridRows eng cfg : ℚ) * gridStep cfg := by
  have hnn : 0 ≤ ⌈(eng.height : ℚ) / gridStep cfg⌉ :=
    Int.ceil_nonneg (by positivity)
  have hcast : ((gridRows eng cfg : ℕ) : ℚ) =
      ((⌈(eng.height : ℚ) / gridStep cfg⌉ : ℤ) : ℚ) + 1 := by
    have h3 : ((gridRows eng cfg : ℕ) : ℤ) =
        ⌈(eng.height : ℚ) / gridStep cfg⌉ + 1 := by
      unfold gridRows
      push_cast
      omega
    exact_mod_cast congrArg (fun z : ℤ => (z : ℚ)) h3
  rw [hcast]
  have hle : (eng.height : ℚ) / gridStep cfg ≤
      ((⌈(eng.height : ℚ) / gridStep cfg⌉ : ℤ) : ℚ) := Int.le_ceil _
  have := mul_le_mul_of_nonneg_right hle (le_of_lt hstep)
  rw [div_mul_cancel₀ _ (ne_of_gt hstep)] at this
  nlinarith

/-- C3: in Grid mode (no mask, non-empty motifs), a non-positive step
yields the empty layout; a positive step yields exactly
`rows × cols = (⌈height/step⌉+1) × (⌈width/step⌉+1)` cell centers in
row-major order, the `i`-th at
`(startX + (i mod cols)·step, startY + (i div cols)·step)` — adjacent
centers exactly `step` apart — and the grid footprint extends strictly
beyond the canvas on all four sides. -/
theorem grid_mode_centers (eng : Engine) (cfg : PatternConfig) (s : ℕ → ℚ)
    (hmode : cfg.mode = Mode.grid) (hassets : eng.assets ≠ [])
    (hmask : cfg.useMask = false ∨ eng.maskData = none) :
    (gridStep cfg ≤ 0 → generateLayout eng cfg s = []) ∧
    (0 < gridStep cfg →
      (generateLayout eng cfg s).length = gridRows eng cfg * gridCols eng cfg ∧
      (∀ (i : ℕ) (h : i < (generateLayout eng cfg s).length),
        ((generateLayout eng cfg s).get ⟨i, h⟩).x =
          gridStartX eng cfg + ((i % gridCols eng cfg : ℕ) : ℚ) * gridStep cfg ∧
        ((generateLayout eng cfg s).get ⟨i, h⟩).y =
          gridStartY eng cfg + ((i / gridCols eng cfg : ℕ) : ℚ) * gridStep cfg) ∧
      gridStartX eng cfg - gridStep cfg / 2 < 0 ∧
      gridStartY eng cfg - gridStep cfg / 2 < 0 ∧
      (eng.width : ℚ) <
        gridStartX eng cfg + ((gridCols eng cfg - 1 : ℕ) : ℚ) * gridStep cfg +
          gridStep cfg / 2 ∧
      (eng.height : ℚ) <
        gridStartY eng cfg + ((gridRows eng cfg - 1 : ℕ) : ℚ) * gridStep cfg +
          gridStep cfg / 2) := by
  have hne : ¬ eng.assets.length = 0 := by simpa using hassets
  constructor
  · intro hstep
    unfold generateLayout
    rw [if_neg hne, hmode, if_pos rfl, if_pos hstep]
  · intro hstep
    have hgen : generateLayout eng cfg s =
        (gridLoop eng cfg s
          (gridCells (gridRows eng cfg) (gridCols eng cfg)) [] 0).1 := by
      unfold generateLayout
      rw [if_neg hne, hmode, if_pos rfl, if_neg (not_le.mpr hstep)]
    have hlen : (generateLayout eng cfg s).length =
        gridRows eng cfg * gridCols eng cfg := by
      rw [hgen, gridLoop_length eng cfg s hmask, gridCells_length]
      simp
    refine ⟨hlen, ?_, ?_, ?_, ?_, ?_⟩
    · intro i h
      have hcells : (gridCells (gridRows eng cfg) (gridCols eng cfg)).get? i =
          some (i / gridCols eng cfg, i % gridCols eng cfg) :=
        gridCells_get? _ _ i (by rw [hlen] at h; exact h)
      obtain ⟨it, hget, hx, hy⟩ := gridLoop_get? eng cfg s hmask _ 0 i _ hcells
      have hsome : (generateLayout eng cfg s).get? i =
          some ((generateLayout eng cfg s).get ⟨i, h⟩) := List.get?_eq_get h
      rw [← hgen] at hget
      have hit : it = (generateLayout eng cfg s).get ⟨i, h⟩ := by
        injection hget.symm.trans hsome
      constructor
      · rw [← hit, hx]
      · rw [← hit, hy]
    · have := gridCols_mul_step eng cfg hstep
      unfold gridStartX
      have hw : (0 : ℚ) ≤ (eng.width : ℚ) := by positivity
      linarith
    · have := gridRows_mul_step eng cfg hstep
      unfold gridStartY
      have hh : (0 : ℚ) ≤ (eng.height : ℚ) := by positivity
      linarith
    · have hcs := gridCols_mul_step eng cfg hstep
      have h1 : 1 ≤ gridCols eng cfg := by unfold gridCols; omega
      have hcast : ((gridCols eng cfg - 1 : ℕ) : ℚ) = (gridCols eng cfg : ℚ) - 1 := by
        push_cast [Nat.cast_sub h1]
        ring
      rw [hcast]
      unfold gridStartX
      linarith
    · have hcs := gridRows_mul_step eng cfg hstep
      have h1 : 1 ≤ gridRows eng cfg := by unfold gridRows; omega
      have hcast : ((gridRows eng cfg - 1 : ℕ) : ℚ) = (gridRows eng cfg : ℚ) - 1 := by
        push_cast [Nat.cast_sub h1]
        ring
      rw [hcast]
      unfold gridStartY
      linarith

/-- Concrete engine for the C3 witness: a 500×500 canvas. -/
def W3eng : Engine := ⟨500, 500, [⟨"a", AssetType.svg, "", 1, none, none⟩], none⟩

/-- Concrete configuration for the C3 witness: `maxSize=40, gridGap=10`. -/
def W3cfg : PatternConfig :=
  ⟨Mode.grid, 0, 10, 10, 40, false, [], false, false, false, false, false, 0, 0⟩

/-- Constant sample stream for the C3 witness. -/
def W3s : ℕ → ℚ := fun _ => 0

/-- Witness for C3: for `maxSize=40, gridGap=10` on a `500×500` canvas,
`step=50`, `cols=rows=11`, and the layout has `rows × cols` items. -/
theorem grid_mode_centers_witness :
    gridStep W3cfg = 50 ∧ gridCols W3eng W3cfg = 11 ∧ gridRows W3eng W3cfg = 11 ∧
      (generateLayout W3eng W3cfg W3s).length =
        gridRows W3eng W3cfg * gridCols W3eng W3cfg := by
  have hstep : gridStep W3cfg = 50 := by norm_num [gridStep, W3cfg]
  have hceil : ⌈(500 : ℚ) / 50⌉ = (10 : ℤ) := by
    rw [Int.ceil_eq_iff]
    norm_num
  have hcols : gridCols W3eng W3cfg = 11 := by
    unfold gridCols
    rw [hstep, show ((W3eng.width : ℕ) : ℚ) = 500 by norm_num [W3eng], hceil]
    rfl
  have hrows : gridRows W3eng W3cfg = 11 := by
    unfold gridRows
    rw [hstep, show ((W3eng.height : ℕ) : ℚ) = 500 by norm_num [W3eng], hceil]
    rfl
  exact ⟨hstep, hcols, hrows,
    ((grid_mode_centers W3eng W3cfg W3s rfl (by simp [W3eng]) (Or.inl rfl)).2
      (by rw [hstep]; norm_num)).1⟩

/-- Engine with an empty registry, for the render error-handling claims. -/
def C4eng : Engine := ⟨100, 100, [], none⟩

/-- Configuration with animation disabled, for the render claims. -/
def C4cfg : PatternConfig :=
  ⟨Mode.random, 0, 0, 0, 0, false, [], false, false, false, false, false, 0, 0⟩

/-- An item whose motif id is absent from the registry but which carries
a cached tinted surface. -/
def C4item : LayoutItem :=
  ⟨0, "gone", 5, 5, 10, 10, 0, some ("red"), some ⟨"gone", "red", 10, 10⟩, 0, 1⟩

/-- An item whose motif id is absent from the registry and which has no
cached tinted surface. -/
def C4item2 : LayoutItem :=
  ⟨0, "gone", 5, 5, 10, 10, 0, none, none, 0, 1⟩

/-- C4 counterexample: an item referencing a missing motif but carrying
a cached tinted surface is NOT skipped — render still emits one draw
call for it, taken from the cache, so the claim fails for such items. -/
theorem render_missing_motif_cached_item_drawn :
    lookupAsset C4eng C4item.assetId = none ∧
    (render C4eng C4cfg 0 [C4item]).length = 1 :=
  ⟨rfl, rfl⟩

/-- C4 (amended): an item whose motif is missing from the registry and
which has no cached tinted surface is silently skipped by render — it
contributes no draw call and removing it leaves the command list
unchanged; items with a cached surface are instead drawn from the cache
regardless of the registry. -/
theorem render_skips_missing_motif_without_cache (eng : Engine)
    (cfg : PatternConfig) (t : ℝ) (l₁ l₂ : List LayoutItem) (it : LayoutItem)
    (hcache : it.cachedCanvas = none) (hmiss : lookupAsset eng it.assetId = none) :
    renderItem eng cfg t it = none ∧
    render eng cfg t (l₁ ++ it :: l₂) = render eng cfg t (l₁ ++ l₂) := by
  have hnone : renderItem eng cfg t it = none := by
    unfold renderItem
    rw [hcache, hmiss]
  refine ⟨hnone, ?_⟩
  unfold render
  simp [List.filterMap_append, List.filterMap_cons, hnone]

/-- Witness for the amended C4 at a concrete engine and item. -/
theorem render_skips_missing_motif_without_cache_witness :
    renderItem C4eng C4cfg 0 C4item2 = none ∧
    render C4eng C4cfg 0 ([] ++ C4item2 :: []) = render C4eng C4cfg 0 ([] ++ []) :=
  render_skips_missing_motif_without_cache C4eng C4cfg 0 [] [] C4item2 rfl rfl

/-- C5: with a built mask, the mask test rejects every coordinate
outside `[0,width) × [0,height)`, and accepts an in-bounds coordinate
iff its pixel has `alpha > 50` and mean channel brightness `< 200`. -/
theorem checkMask_spec (eng : Engine) (d : ℕ → ℕ) (hm : eng.maskData = some d)
    (x y : ℚ) :
    (¬ (0 ≤ x ∧ x < (eng.width : ℚ) ∧ 0 ≤ y ∧ y < (eng.height : ℚ)) →
      checkMask eng x y = false) ∧
    ((0 ≤ x ∧ x < (eng.width : ℚ) ∧ 0 ≤ y ∧ y < (eng.height : ℚ)) →
      (checkMask eng x y = true ↔
        (50 < d (pixIdx eng x y + 3) ∧
          ((d (pixIdx eng x y) : ℚ) + (d (pixIdx eng x y + 1) : ℚ) +
            (d (pixIdx eng x y + 2) : ℚ)) / 3 < 200))) := by
  constructor
  · intro hout
    have hdisj : ⌊x⌋ < 0 ∨ (eng.width : ℤ) ≤ ⌊x⌋ ∨ ⌊y⌋ < 0 ∨
        (eng.height : ℤ) ≤ ⌊y⌋ := by
      by_contra hc
      push_neg at hc
      obtain ⟨h1, h2, h3, h4⟩ := hc
      apply hout
      refine ⟨?_, ?_, ?_, ?_⟩
      · calc (0 : ℚ) ≤ ((⌊x⌋ : ℤ) : ℚ) := by exact_mod_cast h1
        _ ≤ x := Int.floor_le x
      · calc x < ((⌊x⌋ : ℤ) : ℚ) + 1 := Int.lt_floor_add_one x
        _ ≤ (eng.width : ℚ) := by exact_mod_cast h2
      · calc (0 : ℚ) ≤ ((⌊y⌋ : ℤ) : ℚ) := by exact_mod_cast h3
        _ ≤ y := Int.floor_le y
      · calc y < ((⌊y⌋ : ℤ) : ℚ) + 1 := Int.lt_floor_add_one y
        _ ≤ (eng.height : ℚ) := by exact_mod_cast h4
    simp only [checkMask, hm]
    rw [if_pos hdisj]
  · rintro ⟨h1, h2, h3, h4⟩
    have hnd : ¬ (⌊x⌋ < 0 ∨ (eng.width : ℤ) ≤ ⌊x⌋ ∨ ⌊y⌋ < 0 ∨
        (eng.height : ℤ) ≤ ⌊y⌋) := by
      push_neg
      refine ⟨?_, ?_, ?_, ?_⟩
      · exact_mod_cast Int.le_floor.mpr (by exact_mod_cast h1)
      · exact Int.floor_lt.mpr (by exact_mod_cast h2)
      · exact_mod_cast Int.le_floor.mpr (by exact_mod_cast h3)
      · exact Int.floor_lt.mpr (by exact_mod_cast h4)
    simp only [checkMask, hm]
    rw [if_neg hnd, decide_eq_true_eq]

/-- Concrete engine holding a built mask for the C5 witness: the pixel
buffer is transparent black except for an opaque alpha byte at index 3
(the pixel at the origin). -/
def C5eng : Engine := ⟨2, 2, [], some (fun i => if i = 3 then 255 else 0)⟩

/-- Witness for C5: the mask test rejects a coordinate left of the
canvas, and accepts the in-bounds origin pixel (opaque and dark). -/
theorem checkMask_spec_witness :
    checkMask C5eng (-1) 0 = false ∧ checkMask C5eng (1 / 2) (1 / 2) = true := by
  constructor
  · exact (checkMask_spec C5eng _ rfl (-1) 0).1 (by rintro ⟨h, -⟩; norm_num at h)
  · apply ((checkMask_spec C5eng _ rfl (1 / 2) (1 / 2)).2 (by norm_num [C5eng])).mpr
    have hidx : pixIdx C5eng (1 / 2) (1 / 2) = 0 := by
      unfold pixIdx
      rw [show ⌊(1 / 2 : ℚ)⌋ = 0 by rw [Int.floor_eq_iff] <;> norm_num]
      rfl
    rw [hidx]
    norm_num

/-- The group `exportSVG` emits for an item whose asset is registered:
an `if` choosing the nested-viewport path for truthy vector assets and
the image path otherwise. -/
lemma exportItem_eq_some (eng : Engine) (it : LayoutItem) (a : ProcessedAsset)
    (ha : lookupAsset eng it.assetId = some a) :
    exportItem eng it = some
      (if a.type = AssetType.svg ∧ strTruthy a.vectorContent then
        SVGEntry.vectorGroup it.x it.y (it.anglePi * 180) (-it.w / 2) (-it.h / 2)
          it.w it.h (a.viewBox.getD ("undefined")) (colorAttrOf it)
          (a.vectorContent.getD (""))
      else
        SVGEntry.imageGroup it.x it.y (it.anglePi * 180) (-it.w / 2) (-it.h / 2)
          it.w it.h a.imgSrc) := by
  simp only [exportItem, ha]
  split
  case isTrue h => rfl
  case isFalse h => rfl

/-- The per-item export correspondence asserted by the export claim. -/
def ExportsAs (eng : Engine) (it : LayoutItem) (e : SVGEntry) : Prop :=
  ∃ a : ProcessedAsset, lookupAsset eng it.assetId = some a ∧
    ((a.type = AssetType.svg ∧ strTruthy a.vectorContent = true) →
      e = SVGEntry.vectorGroup it.x it.y (it.anglePi * 180) (-it.w / 2)
        (-it.h / 2) it.w it.h (a.viewBox.getD ("undefined")) (colorAttrOf it)
        (a.vectorContent.getD (""))) ∧
    (¬ (a.type = AssetType.svg ∧ strTruthy a.vectorContent = true) →
      e = SVGEntry.imageGroup it.x it.y (it.anglePi * 180) (-it.w / 2)
        (-it.h / 2) it.w it.h a.imgSrc)

lemma exportSVG_forall₂ (eng : Engine) :
    ∀ items : List LayoutItem,
      (∀ it ∈ items, (lookupAsset eng it.assetId).isSome = true) →
      List.Forall₂ (ExportsAs eng) items (items.filterMap (exportItem eng)) := by
  intro items
  induction items with
  | nil => intro _; simp
  | cons it rest ih =>
    intro hall
    obtain ⟨a, ha⟩ := Option.isSome_iff_exists.mp (hall it (List.mem_cons_self it rest))
    rw [List.filterMap_cons, exportItem_eq_some eng it a ha]
    apply List.Forall₂.cons
    · refine ⟨a, ha, ?_, ?_⟩
      · intro hc
        rw [if_pos hc]
      · intro hc
        rw [if_neg hc]
    · exact ih (fun x hx => hall x (List.mem_cons_of_mem it hx))

/-- C6: when every item's motif is registered, `exportSVG` emits exactly
one group per item, in list order, whose transform is
`translate(item.x, item.y) rotate(angle·180/π)` with the nested viewport
(vector) or image element (raster) at `(-w/2, -h/2)` with size `(w,h)`,
carrying the item's fill color when set; the positions are the items'
static coordinates — no animation offset appears, and the output does
not depend on any render timestamp (export takes no time input). -/
theorem exportSVG_matches_items (eng : Engine) (items : List LayoutItem)
    (hall : ∀ it ∈ items, (lookupAsset eng it.assetId).isSome = true) :
    (exportSVG eng items).entries.length = items.length ∧
    List.Forall₂ (ExportsAs eng) items (exportSVG eng items).entries ∧
    (∀ it : LayoutItem, ((it.anglePi * 180 : ℚ) : ℝ) = it.angle * (180 / Real.pi)) := by
  have hf : List.Forall₂ (ExportsAs eng) items (exportSVG eng items).entries :=
    exportSVG_forall₂ eng items hall
  refine ⟨hf.length_eq.symm, hf, ?_⟩
  intro it
  unfold LayoutItem.angle
  push_cast
  field_simp
  ring

/-- Concrete registry with one vector and one raster motif, for the C6
witness. -/
def C6eng : Engine :=
  ⟨300, 200,
    [⟨"v", AssetType.svg, "", 1, some ("0 0 100 100"), some ("<path/>")⟩,
     ⟨"r", AssetType.raster, "img.png", 2, none, none⟩], none⟩

/-- Item referencing the vector motif. -/
def C6itemV : LayoutItem := ⟨0, "v", 10, 20, 30, 40, 1, some ("#f00"), none, 0, 1⟩

/-- Item referencing the raster motif. -/
def C6itemR : LayoutItem := ⟨0, "r", 50, 60, 70, 80, 0, none, none, 0, 1⟩

/-- Witness for C6 at a concrete registry and two-item list. -/
theorem exportSVG_matches_items_witness :
    (exportSVG C6eng [C6itemV, C6itemR]).entries.length = 2 ∧
    List.Forall₂ (ExportsAs C6eng) [C6itemV, C6itemR]
      (exportSVG C6eng [C6itemV, C6itemR]).entries :=
  ⟨(exportSVG_matches_items C6eng [C6itemV, C6itemR]
      (by intro it hit; fin_cases hit <;> rfl)).1,
   (exportSVG_matches_items C6eng [C6itemV, C6itemR]
      (by intro it hit; fin_cases hit <;> rfl)).2.1⟩

/-- Every item the random-mode loop adds to its accumulator was pushed
by `addItem`. -/
lemma randomLoop_mem (eng : Engine) (cfg : PatternConfig) (s : ℕ → ℚ) :
    ∀ (fuel count k : ℕ) (acc : List LayoutItem) (it : LayoutItem),
      it ∈ randomLoop eng cfg s fuel count k acc →
      it ∈ acc ∨ ∃ (a : ProcessedAsset) (x y w h : ℚ) (k' : ℕ),
        it = (mkItem cfg a x y w h s k').1 := by
  intro fuel
  induction fuel with
  | zero => intro count k acc it hit; left; simpa [randomLoop] using hit
  | succ fuel ih =>
    intro count k acc it hit
    simp only [randomLoop] at hit
    split at hit
    case isFalse => exact Or.inl hit
    case isTrue hcount =>
    split at hit
    case isTrue => exact ih _ _ _ _ hit
    case isFalse =>
    split at hit
    case isTrue => exact ih _ _ _ _ hit
    case isFalse =>
    rcases ih _ _ _ _ hit with h | h
    · rcases List.mem_append.mp h with h2 | h2
      · exact Or.inl h2
      · right
        exact ⟨_, _, _, _, _, _, by simpa using h2⟩
    · exact Or.inr h

/-- Every item the grid loop adds was pushed by `addItem` with width
`maxSize` and height `maxSize / aspectRatio` of a registered motif. -/
lemma gridLoop_mem_maxSize (eng : Engine) (cfg : PatternConfig) (s : ℕ → ℚ)
    (hs : ∀ n, 0 ≤ s n ∧ s n < 1) (hassets : eng.assets ≠ []) :
    ∀ (cells : List (ℕ × ℕ)) (acc : List LayoutItem) (k : ℕ) (it : LayoutItem),
      it ∈ (gridLoop eng cfg s cells acc k).1 →
      it ∈ acc ∨ ∃ a, a ∈ eng.assets ∧ ∃ (x y : ℚ) (k' : ℕ),
        it = (mkItem cfg a x y cfg.maxSize (cfg.maxSize / a.aspectRatio) s k').1 := by
  intro cells
  induction cells with
  | nil => intro acc k it hit; left; simpa [gridLoop] using hit
  | cons rc rest ih =>
    intro acc k it hit
    obtain ⟨r, c⟩ := rc
    simp only [gridLoop] at hit
    split at hit
    case isTrue => exact ih _ _ _ hit
    case isFalse =>
    rcases ih _ _ _ hit with h | h
    · rcases List.mem_append.mp h with h2 | h2
      · exact Or.inl h2
      · right
        refine ⟨eng.assets.getD (pickIndex (s k) eng.assets.length) default,
          ?_, _, _, _, by simpa using h2⟩
        exact getD_mem_of_lt _ _ _
          (pickIndex_lt (hs k).1 (hs k).2 (List.length_pos.mpr hassets))
    · exact Or.inr h

/-- Every generated item was pushed by `addItem` at some stream index. -/
lemma generateLayout_mem_mkItem (eng : Engine) (cfg : PatternConfig) (s : ℕ → ℚ)
    (hs : ∀ n, 0 ≤ s n ∧ s n < 1) (it : LayoutItem)
    (hit : it ∈ generateLayout eng cfg s) :
    ∃ (a : ProcessedAsset) (x y w h : ℚ) (k' : ℕ),
      it = (mkItem cfg a x y w h s k').1 := by
  unfold generateLayout at hit
  by_cases hemp : eng.assets.length = 0
  · rw [if_pos hemp] at hit; cases hit
  · rw [if_neg hemp] at hit
    by_cases hgrid : cfg.mode = Mode.grid
    · rw [if_pos hgrid] at hit
      by_cases hstep : gridStep cfg ≤ 0
      · rw [if_pos hstep] at hit; cases hit
      · rw [if_neg hstep] at hit
        rcases gridLoop_mem_maxSize eng cfg s hs (by simpa using hemp) _ _ _ _ hit
          with h | ⟨a, -, x, y, k', heq⟩
        · cases h
        · exact ⟨a, x, y, _, _, k', heq⟩
    · rw [if_neg hgrid] at hit
      rcases randomLoop_mem eng cfg s _ _ _ _ _ hit with h | h
      · cases h
      · exact h

/-- C7: with `rotationRandomness` set, every Grid-mode item's angle is
exactly one of `{0, π/2, π, 3π/2}` and every Random-mode item's angle
lies in `[0, 2π)`; without it, every item's angle is exactly `0`. -/
theorem rotation_policy (eng : Engine) (cfg : PatternConfig) (s : ℕ → ℚ)
    (hs : ∀ n, 0 ≤ s n ∧ s n < 1) :
    ∀ it ∈ generateLayout eng cfg s,
      (cfg.rotationRandomness = true →
        (cfg.mode = Mode.grid →
          (it.angle = 0 ∨ it.angle = Real.pi / 2 ∨ it.angle = Real.pi ∨
            it.angle = 3 * Real.pi / 2)) ∧
        (cfg.mode = Mode.random → 0 ≤ it.angle ∧ it.angle < 2 * Real.pi)) ∧
      (cfg.rotationRandomness = false → it.angle = 0) := by
  intro it hit
  obtain ⟨a, x, y, w, h, k', heq⟩ := generateLayout_mem_mkItem eng cfg s hs it hit
  have hang : it.anglePi = mkAnglePi cfg (s k') := by rw [heq, mkItem_anglePi]
  constructor
  · intro hrot
    constructor
    · intro hgrid
      have hval : it.anglePi = ((⌊s k' * 4⌋ : ℚ) * 90) / 180 := by
        rw [hang]; unfold mkAnglePi; rw [if_pos hrot, if_pos hgrid]
      have h0 : 0 ≤ ⌊s k' * 4⌋ := Int.floor_nonneg.mpr (by nlinarith [(hs k').1])
      have h4 : ⌊s k' * 4⌋ < 4 := by
        apply Int.floor_lt.mpr
        push_cast
        nlinarith [(hs k').2]
      unfold LayoutItem.angle
      rw [hval]
      set f := ⌊s k' * 4⌋ with hf
      interval_cases f
      · left; push_cast; ring
      · right; left; push_cast; ring
      · right; right; left; push_cast; ring
      · right; right; right; push_cast; ring
    · intro hrand
      have hval : it.anglePi = s k' * 2 := by
        rw [hang]; unfold mkAnglePi
        rw [if_pos hrot, if_neg (by rw [hrand]; simp)]
      have hq0 : (0 : ℝ) ≤ ((s k' : ℚ) : ℝ) := by exact_mod_cast (hs k').1
      have hq1 : ((s k' : ℚ) : ℝ) < 1 := by exact_mod_cast (hs k').2
      unfold LayoutItem.angle
      rw [hval]
      constructor
      · push_cast
        nlinarith [Real.pi_pos]
      · push_cast
        nlinarith [Real.pi_pos]
  · intro hnorot
    have hval : it.anglePi = 0 := by
      rw [hang]; unfold mkAnglePi; rw [if_neg (by rw [hnorot]; simp)]
    unfold LayoutItem.angle
    rw [hval]
    push_cast
    ring

/-- Witness for C7: the first item of the concrete two-item layout (a
configuration without rotation randomness) has angle exactly `0`. -/
theorem rotation_policy_witness :
    ((generateLayout W2eng W2cfg W2s).get
      ⟨0, by rw [W2_layout_length]; omega⟩).angle = 0 :=
  (rotation_policy W2eng W2cfg W2s W2s_bounds _ (List.get_mem _ _ _)).2 rfl

/-- C10: every Grid-mode item has width exactly `maxSize` and height
`maxSize` divided by its chosen motif's aspect ratio, so grid items are
square only when that aspect ratio is `1`. -/
theorem grid_items_fixed_width_aspect_height (eng : Engine) (cfg : PatternConfig)
    (s : ℕ → ℚ) (hs : ∀ n, 0 ≤ s n ∧ s n < 1) (hmode : cfg.mode = Mode.grid) :
    ∀ it ∈ generateLayout eng cfg s, ∃ a, a ∈ eng.assets ∧
      it.assetId = a.id ∧ it.w = cfg.maxSize ∧ it.h = cfg.maxSize / a.aspectRatio ∧
      (cfg.maxSize ≠ 0 → a.aspectRatio ≠ 0 → (it.h = it.w ↔ a.aspectRatio = 1)) := by
  intro it hit
  unfold generateLayout at hit
  by_cases hemp : eng.assets.length = 0
  · rw [if_pos hemp] at hit; cases hit
  · rw [if_neg hemp, hmode, if_pos rfl] at hit
    by_cases hstep : gridStep cfg ≤ 0
    · rw [if_pos hstep] at hit; cases hit
    · rw [if_neg hstep] at hit
      rcases gridLoop_mem_maxSize eng cfg s hs (by simpa using hemp) _ _ _ _ hit
        with h | ⟨a, hmem, x, y, k', heq⟩
      · cases h
      · refine ⟨a, hmem, ?_, ?_, ?_, ?_⟩
        · rw [heq, mkItem_assetId]
        · rw [heq, mkItem_w]
        · rw [heq, mkItem_h]
        · intro hms har
          rw [heq, mkItem_w, mkItem_h]
          constructor
          · intro hh
            field_simp at hh
            exact hh
          · intro hr
            rw [hr, div_one]

lemma W3s_bounds (n : ℕ) : 0 ≤ W3s n ∧ W3s n < 1 := by
  unfold W3s
  norm_num

lemma W3_cols : gridCols W3eng W3cfg = 11 := by
  have hstep : gridStep W3cfg = 50 := by norm_num [gridStep, W3cfg]
  unfold gridCols
  rw [hstep, show ((W3eng.width : ℕ) : ℚ) = 500 by norm_num [W3eng],
    show ⌈(500 : ℚ) / 50⌉ = (10 : ℤ) by rw [Int.ceil_eq_iff] <;> norm_num]
  rfl

lemma W3_rows : gridRows W3eng W3cfg = 11 := by
  have hstep : gridStep W3cfg = 50 := by norm_num [gridStep, W3cfg]
  unfold gridRows
  rw [hstep, show ((W3eng.height : ℕ) : ℚ) = 500 by norm_num [W3eng],
    show ⌈(500 : ℚ) / 50⌉ = (10 : ℤ) by rw [Int.ceil_eq_iff] <;> norm_num]
  rfl

/-- The concrete 500×500 grid layout has `11 × 11 = 121` items. -/
lemma W3_layout_length : (generateLayout W3eng W3cfg W3s).length = 121 := by
  have hgen : generateLayout W3eng W3cfg W3s =
      (gridLoop W3eng W3cfg W3s
        (gridCells (gridRows W3eng W3cfg) (gridCols W3eng W3cfg)) [] 0).1 := by
    unfold generateLayout
    rw [if_neg (by norm_num [W3eng]), if_pos (show W3cfg.mode = Mode.grid from rfl),
      if_neg (show ¬ gridStep W3cfg ≤ 0 by norm_num [gridStep, W3cfg])]
  rw [hgen, gridLoop_length W3eng W3cfg W3s (Or.inl rfl), gridCells_length,
    W3_rows, W3_cols]
  norm_num

/-- Witness for C10: the first item of the concrete 500×500 grid layout
has width `maxSize = 40` and height `40 / aspectRatio`. -/
theorem grid_items_fixed_width_aspect_height_witness :
    ∃ a, a ∈ W3eng.assets ∧
      ((generateLayout W3eng W3cfg W3s).get
        ⟨0, by rw [W3_layout_length]; omega⟩).assetId = a.id ∧
      ((generateLayout W3eng W3cfg W3s).get
        ⟨0, by rw [W3_layout_length]; omega⟩).w = W3cfg.maxSize ∧
      ((generateLayout W3eng W3cfg W3s).get
        ⟨0, by rw [W3_layout_length]; omega⟩).h = W3cfg.maxSize / a.aspectRatio ∧
      (W3cfg.maxSize ≠ 0 → a.aspectRatio ≠ 0 →
        (((generateLayout W3eng W3cfg W3s).get
            ⟨0, by rw [W3_layout_length]; omega⟩).h =
          ((generateLayout W3eng W3cfg W3s).get
            ⟨0, by rw [W3_layout_length]; omega⟩).w ↔ a.aspectRatio = 1)) :=
  grid_items_fixed_width_aspect_height W3eng W3cfg W3s W3s_bounds rfl _
    (List.get_mem _ _ _)

/-- Configuration with animation enabled, unit amplitude and unit
animation speed, for the animation-formula counterexample. -/
def C8cfg : PatternConfig :=
  ⟨Mode.random, 0, 0, 0, 0, false, [], false, false, false, false, true, 1, 1⟩

/-- Item with unit speed multiplier and zero phase. -/
def C8item : LayoutItem := ⟨0, "a", 0, 0, 1, 1, 0, none, none, 0, 1⟩

/-- C8 counterexample: at `t = 1` with `animSpeed = 1`, `amplitude = 1`,
`speedMul = 1`, `phase = 0`, the code's vertical offset is
`sin(0.002)` — the claim's formula with `speed` read as the
configuration's animation speed predicts `sin(1)`, which differs:
the code scales the configured speed by `0.002` first. -/
theorem anim_offset_speed_not_config_speed :
    animDY C8cfg C8item 1 ≠ (C8cfg.animAmplitude : ℝ) *
      Real.sin ((1 : ℝ) * (C8cfg.animSpeed : ℝ) * (C8item.animSpeedMul : ℝ) +
        C8item.phase) := by
  have hlhs : animDY C8cfg C8item 1 = Real.sin (1 / 500) := by
    unfold animDY speedFactor LayoutItem.phase
    rw [if_pos (show C8cfg.enableAnim = true from rfl)]
    norm_num [C8cfg, C8item]
  have hrhs : (C8cfg.animAmplitude : ℝ) *
      Real.sin ((1 : ℝ) * (C8cfg.animSpeed : ℝ) * (C8item.animSpeedMul : ℝ) +
        C8item.phase) = Real.sin 1 := by
    unfold LayoutItem.phase
    norm_num [C8cfg, C8item]
  rw [hlhs, hrhs]
  have hpi := Real.pi_gt_three
  have hlt : Real.sin (1 / 500) < Real.sin 1 := by
    apply Real.sin_lt_sin_of_lt_of_le_pi_div_two (by linarith) (by linarith)
    norm_num
  exact ne_of_lt hlt

/-- C8 (amended): render's per-item offsets equal the claimed formulas
with `speed` being `0.002` times the configuration's animation speed
(the code derives `speed = animSpeed * 0.002` before the loop), and all
three offsets are exactly zero whenever animation is disabled; the
draw command for an item is translated by `(dx, dy)` and rotated by the
wobble. -/
theorem anim_offsets_formulas (eng : Engine) (cfg : PatternConfig)
    (it : LayoutItem) (t : ℝ) :
    (∀ cmd : ItemDraw, renderItem eng cfg t it = some cmd →
      cmd.cx = (it.x : ℝ) + animDX cfg it t ∧
      cmd.cy = (it.y : ℝ) + animDY cfg it t ∧
      cmd.rot = it.angle + animDRot cfg it t) ∧
    (cfg.enableAnim = true →
      animDY cfg it t = (cfg.animAmplitude : ℝ) *
        Real.sin (t * ((2 / 1000) * (cfg.animSpeed : ℝ)) * (it.animSpeedMul : ℝ) +
          it.phase) ∧
      animDX cfg it t = (1 / 2) * (cfg.animAmplitude : ℝ) *
        Real.cos (t * ((2 / 1000) * (cfg.animSpeed : ℝ)) * (7 / 10) *
          (it.animSpeedMul : ℝ) + it.phase) ∧
      animDRot cfg it t = (5 / 100) *
        Real.sin (t * ((2 / 1000) * (cfg.animSpeed : ℝ)) * (5 / 10) *
          (it.animSpeedMul : ℝ))) ∧
    (cfg.enableAnim = false →
      animDY cfg it t = 0 ∧ animDX cfg it t = 0 ∧ animDRot cfg it t = 0) := by
  refine ⟨?_, ?_, ?_⟩
  · intro cmd hcmd
    rcases hq : it.cachedCanvas with _ | c
    · simp only [renderItem, hq] at hcmd
      rcases hl : lookupAsset eng it.assetId with _ | a
      · rw [hl] at hcmd
        cases hcmd
      · rw [hl] at hcmd
        cases hcmd
        exact ⟨rfl, rfl, rfl⟩
    · simp only [renderItem, hq] at hcmd
      cases hcmd
      exact ⟨rfl, rfl, rfl⟩
  · intro he
    unfold animDY animDX animDRot speedFactor
    rw [if_pos he, if_pos he, if_pos he]
    refine ⟨?_, ?_, ?_⟩
    · have harg : t * ((cfg.animSpeed * (2 / 1000) : ℚ) : ℝ) * (it.animSpeedMul : ℝ) +
          it.phase =
          t * ((2 / 1000) * (cfg.animSpeed : ℝ)) * (it.animSpeedMul : ℝ) + it.phase := by
        push_cast
        ring
      rw [harg]
      ring
    · have harg : t * ((cfg.animSpeed * (2 / 1000) : ℚ) : ℝ) * (it.animSpeedMul : ℝ) *
          (7 / 10) + it.phase =
          t * ((2 / 1000) * (cfg.animSpeed : ℝ)) * (7 / 10) * (it.animSpeedMul : ℝ) +
            it.phase := by
        push_cast
        ring
      rw [harg]
      ring
    · have harg : t * ((cfg.animSpeed * (2 / 1000) : ℚ) : ℝ) * (it.animSpeedMul : ℝ) *
          (5 / 10) =
          t * ((2 / 1000) * (cfg.animSpeed : ℝ)) * (5 / 10) * (it.animSpeedMul : ℝ) := by
        push_cast
        ring
      rw [harg]
      ring
  · intro he
    unfold animDY animDX animDRot
    rw [if_neg (by rw [he]; simp), if_neg (by rw [he]; simp), if_neg (by rw [he]; simp)]
    exact ⟨rfl, rfl, rfl⟩

/-- Witness for the amended C8: with animation disabled all three
offsets vanish at a concrete configuration, item and time. -/
theorem anim_offsets_formulas_witness :
    animDY C4cfg C8item 7 = 0 ∧ animDX C4cfg C8item 7 = 0 ∧
      animDRot C4cfg C8item 7 = 0 :=
  (anim_offsets_formulas C4eng C4cfg C8item 7).2.2 rfl

/-- C9 counterexample: on a 100×200 canvas with a 50×200 reference
image, the contain fit constrains the drawn height to `0.9 × 200 = 180`
(90% of the LONGER canvas dimension) and neither drawn dimension equals
`0.9 × min(100,200) = 90`, refuting the "90% of the shorter canvas
dimension" claim. -/
theorem maskDrawRect_not_shorter_dimension :
    (maskDrawRect 100 200 50 200).1 = 45 ∧
    (maskDrawRect 100 200 50 200).2.1 = 180 ∧
    (maskDrawRect 100 200 50 200).2.1 = (9 / 10) * max (100 : ℚ) 200 ∧
    (maskDrawRect 100 200 50 200).1 ≠ (9 / 10) * min (100 : ℚ) 200 ∧
    (maskDrawRect 100 200 50 200).2.1 ≠ (9 / 10) * min (100 : ℚ) 200 := by
  norm_num [maskDrawRect, min_def, max_def]

/-- C9 (amended): `setMask` performs a 90% contain fit — it preserves
the image's aspect ratio, scales so that the ratio-constrained canvas
dimension (height when the canvas is proportionally wider than the
image, width otherwise) is filled to 90%, never exceeds 90% of either
canvas dimension, and centers the drawn rectangle on the canvas. -/
theorem maskDrawRect_contain_fit (W H iw ih : ℚ) (hW : 0 < W) (hH : 0 < H)
    (hiw : 0 < iw) (hih : 0 < ih) :
    (maskDrawRect W H iw ih).1 / (maskDrawRect W H iw ih).2.1 = iw / ih ∧
    (W / H > iw / ih → (maskDrawRect W H iw ih).2.1 = (9 / 10) * H) ∧
    (¬ W / H > iw / ih → (maskDrawRect W H iw ih).1 = (9 / 10) * W) ∧
    (maskDrawRect W H iw ih).1 ≤ (9 / 10) * W ∧
    (maskDrawRect W H iw ih).2.1 ≤ (9 / 10) * H ∧
    (maskDrawRect W H iw ih).2.2.1 + (maskDrawRect W H iw ih).1 / 2 = W / 2 ∧
    (maskDrawRect W H iw ih).2.2.2 + (maskDrawRect W H iw ih).2.1 / 2 = H / 2 := by
  have hr : 0 < iw / ih := by positivity
  by_cases hc : W / H > iw / ih
  · have hrect : maskDrawRect W H iw ih =
        (H * (9 / 10) * (iw / ih), H * (9 / 10),
          (W - H * (9 / 10) * (iw / ih)) / 2, (H - H * (9 / 10)) / 2) := by
      simp only [maskDrawRect]
      rw [if_pos hc]
    rw [hrect]
    have hdw : H * (9 / 10) * (iw / ih) < (9 / 10) * W := by
      have h2 : H * (9 / 10) * (iw / ih) < H * (9 / 10) * (W / H) :=
        mul_lt_mul_of_pos_left hc (by positivity)
      have h3 : H * (9 / 10) * (W / H) = (9 / 10) * W := by
        field_simp
        ring
      linarith
    refine ⟨?_, fun _ => by ring, fun hn => absurd hc hn, le_of_lt hdw,
      by linarith, by ring, by ring⟩
    have hH0 : H ≠ 0 := ne_of_gt hH
    have hih0 : ih ≠ 0 := ne_of_gt hih
    have hiw0 : iw ≠ 0 := ne_of_gt hiw
    field_simp
    ring
  · have hrect : maskDrawRect W H iw ih =
        (W * (9 / 10), W * (9 / 10) / (iw / ih),
          (W - W * (9 / 10)) / 2, (H - W * (9 / 10) / (iw / ih)) / 2) := by
      simp only [maskDrawRect]
      rw [if_neg hc]
    rw [hrect]
    push_neg at hc
    have hdh : W * (9 / 10) / (iw / ih) ≤ (9 / 10) * H := by
      have h1 : W / (iw / ih) ≤ H := by
        rw [div_le_iff hr]
        calc W = W / H * H := by field_simp
        _ ≤ iw / ih * H := mul_le_mul_of_nonneg_right hc (le_of_lt hH)
        _ = H * (iw / ih) := by ring
      calc W * (9 / 10) / (iw / ih) = (9 / 10) * (W / (iw / ih)) := by ring
      _ ≤ (9 / 10) * H := by linarith
    refine ⟨?_, fun hyes => absurd hyes (not_lt.mpr hc), fun _ => by ring,
      by linarith, hdh, by ring, by ring⟩
    have hW0 : W ≠ 0 := ne_of_gt hW
    have hiw0 : iw ≠ 0 := ne_of_gt hiw
    have hih0 : ih ≠ 0 := ne_of_gt hih
    field_simp
    ring

/-- Witness for the amended C9: the contain fit at the counterexample
canvas preserves the image aspect ratio and is centered. -/
theorem maskDrawRect_contain_fit_witness :
    (maskDrawRect 100 200 50 200).1 / (maskDrawRect 100 200 50 200).2.1 =
      (50 : ℚ) / 200 ∧
    (maskDrawRect 100 200 50 200).2.2.1 + (maskDrawRect 100 200 50 200).1 / 2 =
      (100 : ℚ) / 2 :=
  ⟨(maskDrawRect_contain_fit 100 200 50 200 (by norm_num) (by norm_num)
      (by norm_num) (by norm_num)).1,
   (maskDrawRect_contain_fit 100 200 50 200 (by norm_num) (by norm_num)
      (by norm_num) (by norm_num)).2.2.2.2.2.1⟩
